import Mathlib

/-!
Verification of the NGSI v2 data-type module (`fipy/ngsi/entity.py`).

The module is embedded shallowly:

* Python JSON-like values become the inductive `Py`; a Python `dict` is an
  association list `List (String × Py)` (Python dicts have unique keys).
* `datetime.fromisoformat` (standard library) is modelled by `fromisoformat`
  below, following CPython's parser for the `isoformat()` grammar
  `YYYY-MM-DD[*HH[:MM[:SS[.fff[fff]]]][±HH:MM[:SS[.ffffff]]]]`, with the
  range validation performed by the `datetime` constructor.
* `merge_dicts` lives in `fipy/dict`, outside the sources at hand; it is
  modelled from the spec (later entries override earlier ones, last-write-wins,
  with Python dict semantics: an overridden key keeps its original position).
* Fallible Python code (code that can raise) returns `Option`/`Except`.
-/

/-- Python values as they appear in decoded JSON payloads. -/
inductive Py where
  | pnone
  | pbool (b : Bool)
  | pint (n : Int)
  | pstr (s : String)
  | plist (elems : List Py)
  | pdict (fields : List (String × Py))

/-- Python `d.get(k)` on a dict embedded as an association list. -/
def dget (d : List (String × α)) (k : String) : Option α :=
  (d.find? fun p => p.1 == k).map fun p => p.2

/-- Python `s == v` where `s` is a `str` and `v` an arbitrary value:
true exactly when `v` is an equal string. -/
def pyIsStr : Py → String → Bool
  | .pstr s, t => s == t
  | _, _ => false

/-! ## Model of `datetime` and `datetime.fromisoformat` (Python stdlib) -/

/-- A `datetime.datetime` value: calendar fields plus an optional
UTC offset in seconds. -/
structure Datetime where
  year : Nat
  month : Nat
  day : Nat
  hour : Nat
  minute : Nat
  second : Nat
  microsecond : Nat
  tzOffset : Option Int
  deriving DecidableEq, Repr

/-- Gregorian leap-year test, as in Python's `calendar.isleap`. -/
def isLeap (y : Nat) : Bool :=
  (y % 4 == 0) && (y % 100 != 0 || y % 400 == 0)

/-- Number of days in a month, used by the `datetime` constructor's
day-range validation. -/
def daysInMonth (y m : Nat) : Nat :=
  if m == 2 then (if isLeap y then 29 else 28)
  else if m == 4 || m == 6 || m == 9 || m == 11 then 30
  else 31

/-- Consume exactly `n` decimal digits, returning their value and the rest. -/
def takeDigits : Nat → Nat → List Char → Option (Nat × List Char)
  | 0, acc, cs => some (acc, cs)
  | _ + 1, _, [] => none
  | n + 1, acc, c :: cs =>
    if c.isDigit then takeDigits n (acc * 10 + (c.toNat - 48)) cs else none

/-- Consume one expected character. -/
def expectChar (c : Char) : List Char → Option (List Char)
  | [] => none
  | x :: xs => if x = c then some xs else none

/-- Split at the first occurrence of `c`, if any. -/
def splitAtChar (c : Char) : List Char → Option (List Char × List Char)
  | [] => none
  | x :: xs =>
    if x = c then some ([], xs)
    else (splitAtChar c xs).map fun p => (x :: p.1, p.2)

/-- CPython's `_parse_hh_mm_ss_ff`: `HH[:MM[:SS[.fff[fff]]]]`, returning
hour, minute, second and microseconds. -/
def parse_hh_mm_ss_ff (cs : List Char) : Option (Nat × Nat × Nat × Nat) :=
  match takeDigits 2 0 cs with
  | none => none
  | some (h, r1) =>
    match r1 with
    | [] => some (h, 0, 0, 0)
    | ':' :: r2 =>
      match takeDigits 2 0 r2 with
      | none => none
      | some (mi, r3) =>
        match r3 with
        | [] => some (h, mi, 0, 0)
        | ':' :: r4 =>
          match takeDigits 2 0 r4 with
          | none => none
          | some (s, r5) =>
            match r5 with
            | [] => some (h, mi, s, 0)
            | '.' :: r6 =>
              if r6.length = 3 then
                match takeDigits 3 0 r6 with
                | some (f, []) => some (h, mi, s, f * 1000)
                | _ => none
              else if r6.length = 6 then
                match takeDigits 6 0 r6 with
                | some (f, []) => some (h, mi, s, f)
                | _ => none
              else none
            | _ => none
        | _ => none
    | _ => none

/-- CPython's `_parse_isoformat_time`: splits off a timezone part at the
first `-` (or, failing that, `+`), parses both parts with
`parse_hh_mm_ss_ff`, and checks the offset is under 24 hours. -/
def parse_isoformat_time (cs : List Char) : Option (Nat × Nat × Nat × Nat × Option Int) :=
  let split : List Char × Option (Char × List Char) :=
    match splitAtChar '-' cs with
    | some (a, b) => (a, some ('-', b))
    | none =>
      match splitAtChar '+' cs with
      | some (a, b) => (a, some ('+', b))
      | none => (cs, none)
  match parse_hh_mm_ss_ff split.1 with
  | none => none
  | some (h, mi, s, us) =>
    match split.2 with
    | none => some (h, mi, s, us, none)
    | some (sign, tzstr) =>
      if tzstr.length = 5 ∨ tzstr.length = 8 ∨ tzstr.length = 15 then
        match parse_hh_mm_ss_ff tzstr with
        | none => none
        | some (th, tm, ts, tus) =>
          let total : Int := th * 3600 + tm * 60 + ts
          if total * 1000000 + tus < 24 * 3600 * 1000000 then
            some (h, mi, s, us, some (if sign = '-' then -total else total))
          else none
      else none

/-- Range validation performed by the `datetime` constructor. -/
def mkDatetime (y m d : Nat) (t : Nat × Nat × Nat × Nat × Option Int) : Option Datetime :=
  if 1 ≤ y ∧ 1 ≤ m ∧ m ≤ 12 ∧ 1 ≤ d ∧ d ≤ daysInMonth y m ∧
     t.1 ≤ 23 ∧ t.2.1 ≤ 59 ∧ t.2.2.1 ≤ 59 then
    some ⟨y, m, d, t.1, t.2.1, t.2.2.1, t.2.2.2.1, t.2.2.2.2⟩
  else none

/-- Model of `datetime.fromisoformat`: `YYYY-MM-DD`, then optionally one
separator character (any character) followed by a time part.  `none`
models a raised `ValueError`. -/
def fromisoformat (s : String) : Option Datetime :=
  (takeDigits 4 0 s.data).bind fun py =>
  (expectChar '-' py.2).bind fun r2 =>
  (takeDigits 2 0 r2).bind fun pm =>
  (expectChar '-' pm.2).bind fun r4 =>
  (takeDigits 2 0 r4).bind fun pd =>
  (match pd.2 with
   | [] => some (0, 0, 0, 0, none)
   | _ :: rest => parse_isoformat_time rest).bind fun t =>
  mkDatetime py.1 pm.1 pd.1 t

/-- Days since 1970-01-01 of a (valid) civil date, via the standard
era/year-of-era computation; total order agrees with chronological order. -/
def daysFromCivil (y m d : Nat) : Nat :=
  let yAdj := if m ≤ 2 then y - 1 else y
  let era := yAdj / 400
  let yoe := yAdj % 400
  let mp := (m + 9) % 12
  let doy := (153 * mp + 2) / 5 + d - 1
  let doe := yoe * 365 + yoe / 4 - yoe / 100 + doy
  era * 146097 + doe

/-- Naive timeline position of a `Datetime`, in seconds (timezone ignored,
as Python does for naive datetime arithmetic). -/
def Datetime.toSeconds (t : Datetime) : Nat :=
  daysFromCivil t.year t.month t.day * 86400 + t.hour * 3600 + t.minute * 60 + t.second

/-! ## `fipy.dict.merge_dicts`, modelled from the spec -/

/-- Python dict update with a single key: an existing key keeps its
position and gets the new value, a fresh key is appended. -/
def dict_update (acc : List (String × α)) (k : String) (v : α) : List (String × α) :=
  if acc.any fun p => p.1 == k then
    acc.map fun p => if p.1 == k then (k, v) else p
  else acc ++ [(k, v)]

/-- Modelled from the spec: `merge_dicts` from `fipy.dict` is missing from
the sources; the spec describes it as combining N mappings into one, later
entries overriding earlier ones with the same name (last-write-wins). -/
def merge_dicts (ds : List (List (String × α))) : List (String × α) :=
  ds.foldl (fun acc d => d.foldl (fun a kv => dict_update a kv.1 kv.2) acc) []

/-! ## `fipy/ngsi/entity.py` -/

/-- The `ld_urn` helper. -/
def ld_urn (unique_suffix : String) : String :=
  "urn:ngsi-ld:" ++ unique_suffix

/-- The `Attr` pydantic model: optional type tag (default `None`) and an
arbitrary value. -/
structure Attr where
  type : Option String := none
  value : Py

/-- The `Attr.new` factory: `None` yields no attribute, anything else is
wrapped. -/
def Attr.new (value : Py) : Option Attr :=
  match value with
  | .pnone => none
  | v => some { value := v }

/-- The `FloatAttr` pydantic model: type tag fixed to `Number`, float value
(embedded as a rational; no float arithmetic occurs in the module). -/
structure FloatAttr where
  type : Option String := some "Number"
  value : Rat
  deriving DecidableEq, Repr

/-- The inherited `Attr.new` factory at class `FloatAttr`. -/
def FloatAttr.new (value : Option Rat) : Option FloatAttr :=
  match value with
  | none => none
  | some v => some { value := v }

/-- The `TextAttr` pydantic model: type tag fixed to `Text`, string value. -/
structure TextAttr where
  type : Option String := some "Text"
  value : String
  deriving DecidableEq, Repr

/-- The inherited `Attr.new` factory at class `TextAttr`. -/
def TextAttr.new (value : Option String) : Option TextAttr :=
  match value with
  | none => none
  | some v => some { value := v }

/-- A `BaseEntity` subclass instance: `id`, `type`, plus the subclass's
optional attribute fields (name to optional attribute). -/
structure BaseEntity where
  id : String
  type : String
  attrs : List (String × Option Attr) := []

/-- Pydantic JSON serialization of one attribute under `exclude_none`:
a `None` type tag or `None` value is omitted. -/
def attr_to_json (a : Attr) : Py :=
  .pdict ((match a.type with
           | some t => [("type", Py.pstr t)]
           | none => []) ++
          (match a.value with
           | .pnone => []
           | v => [("value", v)]))

/-- The `to_json` method: `self.json(exclude_none=True)` — every field
holding `None` is dropped from the output. -/
def BaseEntity.to_json (e : BaseEntity) : Py :=
  .pdict ([("id", Py.pstr e.id), ("type", Py.pstr e.type)] ++
          e.attrs.filterMap fun p => p.2.map fun a => (p.1, attr_to_json a))

/-- Key lookup on a serialized JSON object (used to state what the emitted
JSON contains). -/
def pyGet : Py → String → Option Py
  | .pdict kvs, k => dget kvs k
  | _, _ => none

/-- The `set_id_with_type_prefix` method: mutates `id` in place and
returns the (updated) entity. -/
def BaseEntity.set_id_with_type_prefix (e : BaseEntity) (unique_suffix : String) : BaseEntity :=
  { e with id := ld_urn (e.type ++ ":" ++ unique_suffix) }

/-- A concrete `BaseEntity` subclass, as a pair of its fixed `type` literal
and its pydantic validator (`cls(**raw_entity)`), which can raise. -/
structure EntityClass (α : Type) where
  typeName : String
  validate : List (String × Py) → Except String α

/-- The `from_raw` classmethod: reads `raw_entity.get('type', '')`; on a
type mismatch yields `None`, otherwise runs full pydantic construction,
whose failure propagates (there is no exception handler). -/
def from_raw (cls : EntityClass α) (raw : List (String × Py)) : Except String (Option α) :=
  let etype := (dget raw "type").getD (Py.pstr "")
  if pyIsStr etype cls.typeName then (cls.validate raw).map some
  else .ok none

/-- The `EntityUpdateNotification` pydantic model. -/
structure EntityUpdateNotification where
  data : List (List (String × Py))

/-- The list comprehension `[entity_class.from_raw(d) for d in self.data]`:
the first raised error aborts the whole comprehension. -/
def raw_candidates (cls : EntityClass α) : List (List (String × Py)) → Except String (List (Option α))
  | [] => .ok []
  | d :: ds =>
    match from_raw cls d with
    | .error e => .error e
    | .ok c =>
      match raw_candidates cls ds with
      | .error e => .error e
      | .ok cs => .ok (c :: cs)

/-- The `filter_entities` method: build all candidates, keep the non-`None`
ones in order. -/
def filter_entities (n : EntityUpdateNotification) (cls : EntityClass α) : Except String (List α) :=
  match raw_candidates cls n.data with
  | .error e => .error e
  | .ok cs => .ok (cs.filterMap id)

/-- A sample concrete entity kind with NGSI type `Room` and no attribute
fields beyond the required `id`; its validator models pydantic v1 for a
required `str` field (string accepted, number coerced, anything else or a
missing field is a validation error). -/
def Room.validate (raw : List (String × Py)) : Except String (String × String) :=
  match dget raw "id" with
  | some (Py.pstr s) => .ok (s, "Room")
  | some (Py.pint n) => .ok (toString n, "Room")
  | some _ => .error "id: str type expected"
  | none => .error "id: field required"

/-- The sample `Room` entity class. -/
def RoomClass : EntityClass (String × String) :=
  ⟨"Room", Room.validate⟩

/-! ## `EntitySeries.from_quantumleap_format` -/

/-- One element of the `attributes` array of a Quantum Leap query result;
absent keys are `none` (the code reads both with `.get` and a default). -/
structure AttrPayload where
  attrName : Option String := none
  values : Option (List Py) := none

/-- A Quantum Leap query-result payload; absent top-level keys are `none`
(the code reads all three with `.get` and a default). -/
structure QueryPayload where
  entityType : Option String := none
  index : Option (List String) := none
  attributes : Option (List AttrPayload) := none

/-- The inner `to_kv` helper: an absent or empty `attrName` yields the
empty dict, otherwise a singleton `attrName : values` dict. -/
def to_kv (a : AttrPayload) : List (String × List Py) :=
  let key := a.attrName.getD ""
  if key = "" then [] else [(key, a.values.getD [])]

/-- The list comprehension `[datetime.fromisoformat(t) for t in raw_tix]`:
the first `ValueError` aborts the whole comprehension. -/
def parse_index : List String → Option (List Datetime)
  | [] => some []
  | t :: ts =>
    match fromisoformat t, parse_index ts with
    | some d, some ds => some (d :: ds)
    | _, _ => none

/-- The result of `from_quantumleap_format`: the dynamically created model's
name, the parsed time index, and the merged attribute fields (field name to
default value array). -/
structure EntitySeries where
  modelName : String
  index : List Datetime
  attrFields : List (String × List Py)

/-- The `EntitySeries.from_quantumleap_format` classmethod. `none` models a
raised error (a malformed timestamp). -/
def EntitySeries.from_quantumleap_format (q : QueryPayload) : Option EntitySeries :=
  let attributes := q.attributes.getD []
  let attr_fields := merge_dicts (attributes.map to_kv)
  let raw_tix := q.index.getD []
  match parse_index raw_tix with
  | none => none
  | some tix => some ⟨(q.entityType.getD "") ++ "Series", tix, attr_fields⟩

/-! ## Helper lemmas -/

theorem string_append_assoc (a b c : String) : a ++ b ++ c = a ++ (b ++ c) := by
  apply String.ext
  simp [String.data_append, List.append_assoc]

theorem parse_index_none_of_mem (l : List String) (t : String)
    (hmem : t ∈ l) (hbad : fromisoformat t = none) : parse_index l = none := by
  induction l with
  | nil => cases hmem
  | cons x xs ih =>
    rcases List.mem_cons.mp hmem with h | h
    · subst h
      cases h2 : parse_index xs <;> simp [parse_index, hbad, h2]
    · cases h1 : fromisoformat x <;> simp [parse_index, ih h, h1]

/-! ## Claim theorems -/

/-- C1: for the query payload with entityType `Room`, index
`[2020-01-01T00:00:00, 2020-01-01T01:00:00]` and attributes
`[attrName temp, values [10, 12]]`, `from_quantumleap_format` returns a
series whose index has length 2 and consists of the two parsed timestamps
exactly one hour apart, and whose `temp` field equals `[10, 12]`. -/
theorem C1_room_series_example :
    EntitySeries.from_quantumleap_format
      ⟨some "Room", some ["2020-01-01T00:00:00", "2020-01-01T01:00:00"],
       some [⟨some "temp", some [Py.pint 10, Py.pint 12]⟩]⟩ =
      some ⟨"RoomSeries",
            [⟨2020, 1, 1, 0, 0, 0, 0, none⟩, ⟨2020, 1, 1, 1, 0, 0, 0, none⟩],
            [("temp", [Py.pint 10, Py.pint 12])]⟩ ∧
    ([(⟨2020, 1, 1, 0, 0, 0, 0, none⟩ : Datetime), ⟨2020, 1, 1, 1, 0, 0, 0, none⟩]).length = 2 ∧
    Datetime.toSeconds ⟨2020, 1, 1, 1, 0, 0, 0, none⟩ -
      Datetime.toSeconds ⟨2020, 1, 1, 0, 0, 0, 0, none⟩ = 3600 :=
  ⟨rfl, rfl, by decide⟩

/-- C2: if any entry of the index is not a valid ISO-8601 timestamp string,
`from_quantumleap_format` fails and produces no series at all. -/
theorem C2_bad_timestamp_fails (q : QueryPayload) (t : String)
    (hmem : t ∈ q.index.getD []) (hbad : fromisoformat t = none) :
    EntitySeries.from_quantumleap_format q = none := by
  simp [ EntitySeries.from_quantumleap_format, parse_index_none_of_mem _ t hmem hbad]

/-- Witness for C2 at a concrete payload with one malformed timestamp. -/
theorem C2_bad_timestamp_fails_witness :
    fromisoformat "nope" = none ∧
    EntitySeries.from_quantumleap_format
      ⟨none, some ["2020-01-01T00:00:00", "nope"], none⟩ = none :=
  ⟨rfl, C2_bad_timestamp_fails ⟨none, some ["2020-01-01T00:00:00", "nope"], none⟩ "nope"
    (by simp) rfl⟩

/-- C6: `from_raw` on a record whose `type` field differs from the entity
kind's fixed type literal yields no entity (and no error), no matter what
other fields the record contains. -/
theorem C6_from_raw_total (α : Type) (cls : EntityClass α) (raw : List (String × Py))
    (h : pyIsStr ((dget raw "type").getD (Py.pstr "")) cls.typeName = false) :
    from_raw cls raw = .ok none := by
  simp [from_raw, h]

/-- Witness for C6 at the `Room` kind and a record of a different type with
extra fields. -/
theorem C6_from_raw_total_witness :
    pyIsStr ((dget [("type", Py.pstr "Device"), ("junk", Py.pint 3)] "type").getD (Py.pstr ""))
      RoomClass.typeName = false ∧
    from_raw RoomClass [("type", Py.pstr "Device"), ("junk", Py.pint 3)] = .ok none :=
  ⟨rfl, C6_from_raw_total _ RoomClass [("type", Py.pstr "Device"), ("junk", Py.pint 3)] rfl⟩

/-- C7: for both attribute wrapper kinds, constructing from an absent value
yields no wrapper, and constructing from a concrete value yields a wrapper
holding exactly that value with the kind's fixed type tag (`Number` for the
numeric kind, `Text` for the text kind). -/
theorem C7_attr_factories :
    FloatAttr.new none = none ∧
    (∀ v : Rat, FloatAttr.new (some v) = some ⟨some "Number", v⟩) ∧
    TextAttr.new none = none ∧
    (∀ s : String, TextAttr.new (some s) = some ⟨some "Text", s⟩) :=
  ⟨rfl, fun _ => rfl, rfl, fun _ => rfl⟩

/-- C9: `set_id_with_type_prefix suffix` sets the id to exactly
`urn:ngsi-ld:<type>:<suffix>`, overwriting any previous id, leaves every
other field unchanged, and returns the entity itself. -/
theorem C9_set_id_with_type_prefixed_urn (e : BaseEntity) (suffix : String) :
    BaseEntity.set_id_with_type_prefix e suffix =
      { e with id := "urn:ngsi-ld:" ++ e.type ++ ":" ++ suffix } := by
  simp [ BaseEntity.set_id_with_type_prefix, ld_urn, string_append_assoc]

/-- C10: missing top-level payload keys never make `from_quantumleap_format`
fail: a missing index behaves as the empty index, missing attributes as the
empty attribute list, a missing entityType as the empty type name, and the
completely empty payload yields a valid series named `Series` with empty
index and no attribute fields. -/
theorem C10_missing_keys_defaulted :
    (∀ q : QueryPayload,
        EntitySeries.from_quantumleap_format { q with index := none } =
        EntitySeries.from_quantumleap_format { q with index := some [] }) ∧
    (∀ q : QueryPayload,
        EntitySeries.from_quantumleap_format { q with attributes := none } =
        EntitySeries.from_quantumleap_format { q with attributes := some [] }) ∧
    (∀ q : QueryPayload,
        EntitySeries.from_quantumleap_format { q with entityType := none } =
        EntitySeries.from_quantumleap_format { q with entityType := some "" }) ∧
    EntitySeries.from_quantumleap_format ⟨none, none, none⟩ = some ⟨"Series", [], []⟩ :=
  ⟨fun _ => rfl, fun _ => rfl, fun _ => rfl, rfl⟩

/-- C3: an attribute element whose attrName is absent or empty contributes
no field and causes no error: the series built with such an element added
anywhere in the attributes list is identical to the series built without it. -/
theorem C3_nameless_attr_dropped (q : QueryPayload) (pre post : List AttrPayload)
    (a : AttrPayload) (h : a.attrName.getD "" = "") :
    EntitySeries.from_quantumleap_format { q with attributes := some (pre ++ a :: post) } =
    EntitySeries.from_quantumleap_format { q with attributes := some (pre ++ post) } := by
  have hkv : to_kv a = [] := by simp [to_kv, h]
  simp [ EntitySeries.from_quantumleap_format, merge_dicts, List.map_append,
         List.foldl_append, hkv]

/-- Witness for C3: adding an attribute payload with empty name to the
`Room` example leaves the series unchanged. -/
theorem C3_nameless_attr_dropped_witness :
    (AttrPayload.mk (some "") (some [Py.pint 1, Py.pint 2])).attrName.getD "" = "" ∧
    EntitySeries.from_quantumleap_format
      ⟨some "Room", some ["2020-01-01T00:00:00"],
       some [⟨some "", some [Py.pint 1, Py.pint 2]⟩, ⟨some "temp", some [Py.pint 10]⟩]⟩ =
    EntitySeries.from_quantumleap_format
      ⟨some "Room", some ["2020-01-01T00:00:00"], some [⟨some "temp", some [Py.pint 10]⟩]⟩ :=
  ⟨rfl, C3_nameless_attr_dropped ⟨some "Room", some ["2020-01-01T00:00:00"], none⟩
    [] [⟨some "temp", some [Py.pint 10]⟩] ⟨some "", some [Py.pint 1, Py.pint 2]⟩ rfl⟩

/-- When every record decodes without raising, the comprehension returns
all candidates in order. -/
theorem raw_candidates_ok (cls : EntityClass α) (l : List (List (String × Py)))
    (h : ∀ d ∈ l, ∃ c, from_raw cls d = .ok c) :
    raw_candidates cls l = .ok (l.map fun d =>
      match from_raw cls d with
      | .ok c => c
      | .error _ => none) := by
  induction l with
  | nil => rfl
  | cons d ds ih =>
    obtain ⟨c, hc⟩ := h d (List.mem_cons_self d ds)
    have ihds := ih fun x hx => h x (List.mem_cons_of_mem _ hx)
    simp [raw_candidates, hc, ihds]

/-- A record that raises during decoding makes the whole comprehension
raise. -/
theorem raw_candidates_err (cls : EntityClass α) (l : List (List (String × Py)))
    (d : List (String × Py)) (hmem : d ∈ l) (e : String)
    (he : from_raw cls d = .error e) :
    ∃ e2, raw_candidates cls l = .error e2 := by
  induction l with
  | nil => cases hmem
  | cons x xs ih =>
    rcases List.mem_cons.mp hmem with h | h
    · subst h
      exact ⟨e, by simp [raw_candidates, he]⟩
    · cases hx : from_raw cls x with
      | error e3 => exact ⟨e3, by simp [raw_candidates, hx]⟩
      | ok c =>
        obtain ⟨e2, h2⟩ := ih h
        exact ⟨e2, by simp [raw_candidates, hx, h2]⟩

/-- Counterexample to C5 as stated: a record whose `type` matches the
target kind but whose fields are malformed (here: the required `id` field
is missing) is not silently dropped — the pydantic error propagates out of
`filter_entities` and no list is returned. -/
theorem C5_counterexample_matching_malformed_raises :
    filter_entities ⟨[[("type", Py.pstr "Room")]]⟩ RoomClass = .error "id: field required" :=
  rfl

/-- C5 amended: `filter_entities` returns exactly the successfully decoded
matching records in their original order, and records whose type differs
from the target kind are silently dropped; but if any record of matching
type fails to decode, the error propagates to the caller and no list is
returned at all. -/
theorem C5_filter_entities_best_effort (α : Type) (cls : EntityClass α)
    (n : EntityUpdateNotification) :
    ((∀ d ∈ n.data, ∃ c, from_raw cls d = .ok c) →
      filter_entities n cls = .ok (n.data.filterMap fun d =>
        match from_raw cls d with
        | .ok c => c
        | .error _ => none)) ∧
    ((∃ d ∈ n.data, ∃ e, from_raw cls d = .error e) →
      ∃ e, filter_entities n cls = .error e) := by
  constructor
  · intro h
    have hrc := raw_candidates_ok cls n.data h
    simp [filter_entities, hrc, List.filterMap_map, Function.comp]
  · rintro ⟨d, hd, e, he⟩
    obtain ⟨e2, h2⟩ := raw_candidates_err cls n.data d hd e he
    exact ⟨e2, by simp [filter_entities, h2]⟩

/-- Witness for the amended C5: a wrong-type record is dropped and a good
`Room` record survives; a matching-type record with a mistyped `id` makes
the whole call fail. -/
theorem C5_filter_entities_best_effort_witness :
    filter_entities
      ⟨[[("type", Py.pstr "Other")], [("type", Py.pstr "Room"), ("id", Py.pstr "r1")]]⟩
      RoomClass = .ok [("r1", "Room")] ∧
    (∃ e, filter_entities
      ⟨[[("type", Py.pstr "Room"), ("id", Py.pbool true)]]⟩ RoomClass = .error e) :=
  ⟨((C5_filter_entities_best_effort _ RoomClass
      ⟨[[("type", Py.pstr "Other")], [("type", Py.pstr "Room"), ("id", Py.pstr "r1")]]⟩).1
      (by
        intro d hd
        rcases List.mem_cons.mp hd with h | h
        · subst h; exact ⟨none, rfl⟩
        · rcases List.mem_cons.mp h with h2 | h2
          · subst h2; exact ⟨some ("r1", "Room"), rfl⟩
          · cases h2)).trans rfl,
   (C5_filter_entities_best_effort _ RoomClass
      ⟨[[("type", Py.pstr "Room"), ("id", Py.pbool true)]]⟩).2
      ⟨[("type", Py.pstr "Room"), ("id", Py.pbool true)],
       List.mem_cons_self _ _, "id: str type expected", rfl⟩⟩

/-- Unfolding `dget` over a cons cell. -/
theorem dget_cons (k : String) (v : α) (l : List (String × α)) (n : String) :
    dget ((k, v) :: l) n = if (k == n) = true then some v else dget l n := by
  by_cases h : (k == n) = true <;> simp [dget, List.find?_cons, h]

/-- If no entry has the key, `dget` yields nothing. -/
theorem dget_eq_none (l : List (String × α)) (n : String)
    (h : ∀ p ∈ l, (p.1 == n) = false) : dget l n = none := by
  induction l with
  | nil => rfl
  | cons p ps ih =>
    obtain ⟨k, v⟩ := p
    rw [dget_cons, if_neg, ih fun x hx => h x (List.mem_cons_of_mem _ hx)]
    simp [h (k, v) (List.mem_cons_self _ _)]

/-- Serializing a cons cell with an unset attribute skips it. -/
theorem filterMap_attr_cons_unset (k : String) (ps : List (String × Option Attr)) :
    ((k, (none : Option Attr)) :: ps).filterMap
        (fun p => p.2.map fun a => (p.1, attr_to_json a)) =
      ps.filterMap (fun p => p.2.map fun a => (p.1, attr_to_json a)) :=
  rfl

/-- Serializing a cons cell with a set attribute emits it. -/
theorem filterMap_attr_cons_set (k : String) (a : Attr) (ps : List (String × Option Attr)) :
    ((k, some a) :: ps).filterMap
        (fun p => p.2.map fun a => (p.1, attr_to_json a)) =
      (k, attr_to_json a) :: ps.filterMap (fun p => p.2.map fun a => (p.1, attr_to_json a)) :=
  rfl

/-- Looking a name up in the serialized attribute fields agrees with
looking it up among the entity's attribute fields, when field names are
unique: an unset attribute is absent, a set one serializes via
`attr_to_json`. -/
theorem dget_serialized_attrs (attrs : List (String × Option Attr)) (n : String)
    (hnd : (attrs.map Prod.fst).Nodup) :
    (dget attrs n = some none →
      dget (attrs.filterMap fun p => p.2.map fun a => (p.1, attr_to_json a)) n = none) ∧
    (∀ a : Attr, dget attrs n = some (some a) →
      dget (attrs.filterMap fun p => p.2.map fun a => (p.1, attr_to_json a)) n =
        some (attr_to_json a)) := by
  induction attrs with
  | nil => simp [dget]
  | cons p ps ih =>
    obtain ⟨k, oa⟩ := p
    rw [List.map_cons, List.nodup_cons] at hnd
    obtain ⟨hk, hnd'⟩ := hnd
    have ihps := ih hnd'
    by_cases hkn : (k == n) = true
    · have hkeq : k = n := eq_of_beq hkn
      subst hkeq
      constructor
      · intro h
        rw [dget_cons, if_pos hkn] at h
        obtain rfl : oa = none := by injection h
        rw [filterMap_attr_cons_unset]
        apply dget_eq_none
        intro p2 hp2
        rcases List.mem_filterMap.mp hp2 with ⟨q2, hq2, hmap⟩
        cases hoa : q2.2 with
        | none => rw [hoa] at hmap; cases hmap
        | some a2 =>
          rw [hoa] at hmap
          obtain rfl : (q2.1, attr_to_json a2) = p2 := by injection hmap
          have : q2.1 ∈ ps.map Prod.fst := List.mem_map.mpr ⟨q2, hq2, rfl⟩
          simp only [beq_eq_false_iff_ne]
          intro hcontra
          exact hk (hcontra ▸ this)
      · intro a h
        rw [dget_cons, if_pos hkn] at h
        obtain rfl : oa = some a := by injection h
        rw [filterMap_attr_cons_set, dget_cons, if_pos hkn]
    · constructor
      · intro h
        rw [dget_cons, if_neg hkn] at h
        cases oa with
        | none =>
          rw [filterMap_attr_cons_unset]
          exact ihps.1 h
        | some a0 =>
          rw [filterMap_attr_cons_set, dget_cons, if_neg hkn]
          exact ihps.1 h
      · intro a h
        rw [dget_cons, if_neg hkn] at h
        cases oa with
        | none =>
          rw [filterMap_attr_cons_unset]
          exact ihps.2 a h
        | some a0 =>
          rw [filterMap_attr_cons_set, dget_cons, if_neg hkn]
          exact ihps.2 a h

/-- C8: JSON serialization omits the key of every attribute field holding
no value, and includes, for every attribute field that is set, exactly that
attribute's value and type tag. -/
theorem C8_json_omits_unset_includes_set (e : BaseEntity) (n : String)
    (hid : n ≠ "id") (hty : n ≠ "type") (hnd : (e.attrs.map Prod.fst).Nodup) :
    (dget e.attrs n = some none → pyGet ( BaseEntity.to_json e) n = none) ∧
    (∀ (a : Attr) (tag : String), dget e.attrs n = some (some a) → a.type = some tag →
      a.value ≠ Py.pnone →
      pyGet ( BaseEntity.to_json e) n =
        some (Py.pdict [("type", Py.pstr tag), ("value", a.value)])) := by
  have hid2 : ("id" == n) = false := beq_eq_false_iff_ne.mpr (Ne.symm hid)
  have hty2 : ("type" == n) = false := beq_eq_false_iff_ne.mpr (Ne.symm hty)
  have hskip : pyGet ( BaseEntity.to_json e) n =
      dget (e.attrs.filterMap fun p => p.2.map fun a => (p.1, attr_to_json a)) n := by
    show dget _ n = _
    rw [List.cons_append, List.cons_append, List.nil_append,
        dget_cons, if_neg (by rw [hid2]; simp), dget_cons, if_neg (by rw [hty2]; simp)]
  constructor
  · intro h
    rw [hskip]
    exact (dget_serialized_attrs e.attrs n hnd).1 h
  · intro a tag h htag hval
    rw [hskip, (dget_serialized_attrs e.attrs n hnd).2 a h]
    have : attr_to_json a = Py.pdict [("type", Py.pstr tag), ("value", a.value)] := by
      unfold attr_to_json
      rw [htag]
      cases hv : a.value <;> first
        | exact absurd hv hval
        | rfl
    rw [this]

/-- Witness for C8 on a concrete entity with one set and one unset
attribute field. -/
theorem C8_json_omits_unset_includes_set_witness :
    pyGet ( BaseEntity.to_json
      ⟨"urn:x", "Room",
       [("temperature", some ⟨some "Number", Py.pint 20⟩), ("humidity", none)]⟩) "humidity" =
      none ∧
    pyGet ( BaseEntity.to_json
      ⟨"urn:x", "Room",
       [("temperature", some ⟨some "Number", Py.pint 20⟩), ("humidity", none)]⟩) "temperature" =
      some (Py.pdict [("type", Py.pstr "Number"), ("value", Py.pint 20)]) :=
  ⟨(C8_json_omits_unset_includes_set
      ⟨"urn:x", "Room",
       [("temperature", some ⟨some "Number", Py.pint 20⟩), ("humidity", none)]⟩
      "humidity" (by decide) (by decide) (by simp)).1 rfl,
   (C8_json_omits_unset_includes_set
      ⟨"urn:x", "Room",
       [("temperature", some ⟨some "Number", Py.pint 20⟩), ("humidity", none)]⟩
      "temperature" (by decide) (by decide) (by simp)).2
      ⟨some "Number", Py.pint 20⟩ "Number" rfl rfl (fun h => nomatch h)⟩

/-- Replacing the values of entries keyed `k2` does not change the entries
keyed `k` when `k2` and `k` differ. -/
theorem filter_map_replace_ne (l : List (String × α)) (k k2 : String) (v : α)
    (h : (k2 == k) = false) :
    (l.map fun p => if p.1 == k2 then (k2, v) else p).filter (fun p => p.1 == k) =
      l.filter (fun p => p.1 == k) := by
  induction l with
  | nil => rfl
  | cons p ps ih =>
    rw [List.map_cons, List.filter_cons, List.filter_cons]
    cases hbp : p.1 == k2 with
    | false =>
      simp only [show (if false = true then (k2, v) else p) = p from rfl, ih]
    | true =>
      have hpk : (p.1 == k) = false := by rw [eq_of_beq hbp]; exact h
      simp only [ih, hpk, show ((k2, v).1 == k) = false from h,
                 show (if True then (k2, v) else p) = (k2, v) from rfl,
                 show (if true = true then (k2, v) else p) = (k2, v) from rfl]
      rfl

/-- Replacing the values of entries keyed `k` rewrites exactly the entries
keyed `k`. -/
theorem filter_map_replace_self (l : List (String × α)) (k : String) (v : α) :
    (l.map fun p => if p.1 == k then (k, v) else p).filter (fun p => p.1 == k) =
      (l.filter (fun p => p.1 == k)).map (fun _ => (k, v)) := by
  induction l with
  | nil => rfl
  | cons p ps ih =>
    rw [List.map_cons, List.filter_cons, List.filter_cons]
    cases hbp : p.1 == k with
    | false =>
      simp only [show (if false = true then (k, v) else p) = p from rfl, ih, hbp]
      rfl
    | true =>
      simp only [ih, hbp, show ((k, v).1 == k) = true from beq_self_eq_true k,
                 show (if True then (k, v) else p) = (k, v) from rfl,
                 show (if true = true then (k, v) else p) = (k, v) from rfl]
      rfl

/-- Updating key `k` in a dict holding `k` at most once leaves exactly one
entry for `k`, holding the new value. -/
theorem filter_dict_update_self (acc : List (String × α)) (k : String) (v : α)
    (h : acc.filter (fun p => p.1 == k) = [] ∨
         ∃ w, acc.filter (fun p => p.1 == k) = [(k, w)]) :
    (dict_update acc k v).filter (fun p => p.1 == k) = [(k, v)] := by
  unfold dict_update
  by_cases hany : (acc.any fun p => p.1 == k) = true
  · rw [if_pos hany, filter_map_replace_self]
    rcases h with h0 | ⟨w, hw⟩
    · exfalso
      obtain ⟨x, hx, hpx⟩ := List.any_eq_true.mp hany
      have hmem : x ∈ acc.filter (fun p => p.1 == k) := List.mem_filter.mpr ⟨hx, hpx⟩
      rw [h0] at hmem
      cases hmem
    · rw [hw]
      rfl
  · rw [if_neg hany, List.filter_append]
    have hany2 : (acc.any fun p => p.1 == k) = false := Bool.eq_false_iff.mpr hany
    have h0 : acc.filter (fun p => p.1 == k) = [] :=
      List.filter_eq_nil_iff.mpr (List.any_eq_false.mp hany2)
    rw [h0]
    simp [List.filter_cons]

/-- Updating a key other than `k` does not change the entries keyed `k`. -/
theorem filter_dict_update_ne (acc : List (String × α)) (k k2 : String) (v : α)
    (h : (k2 == k) = false) :
    (dict_update acc k2 v).filter (fun p => p.1 == k) = acc.filter (fun p => p.1 == k) := by
  unfold dict_update
  by_cases hany : (acc.any fun p => p.1 == k2) = true
  · rw [if_pos hany, filter_map_replace_ne _ _ _ _ h]
  · rw [if_neg hany, List.filter_append]
    simp [List.filter_cons, h]

/-- Folding updates whose keys all differ from `k` does not change the
entries keyed `k`. -/
theorem filter_foldl_update_ne (pairs : List (String × α)) (acc : List (String × α))
    (k : String) (h : ∀ p ∈ pairs, (p.1 == k) = false) :
    (pairs.foldl (fun a kv => dict_update a kv.1 kv.2) acc).filter (fun p => p.1 == k) =
      acc.filter (fun p => p.1 == k) := by
  induction pairs generalizing acc with
  | nil => rfl
  | cons p ps ih =>
    rw [List.foldl_cons, ih _ fun x hx => h x (List.mem_cons_of_mem _ hx),
        filter_dict_update_ne _ _ _ _ (h p (List.mem_cons_self _ _))]

/-- Merging a list of dicts is folding the single-key update over their
concatenated entries. -/
theorem merge_foldl_flatten (ds : List (List (String × α))) (init : List (String × α)) :
    ds.foldl (fun acc d => d.foldl (fun a kv => dict_update a kv.1 kv.2) acc) init =
      ds.flatten.foldl (fun a kv => dict_update a kv.1 kv.2) init := by
  induction ds generalizing init with
  | nil => rfl
  | cons d ds ih => rw [List.foldl_cons, List.flatten_cons, List.foldl_append, ih]

/-- The merged attribute fields are the flattened-entry fold. -/
theorem merge_dicts_eq_flatten_foldl (ds : List (List (String × α))) :
    merge_dicts ds = ds.flatten.foldl (fun a kv => dict_update a kv.1 kv.2) [] :=
  merge_foldl_flatten ds []

/-- Definitional unfolding of `from_quantumleap_format`. -/
theorem from_ql_eq (p : QueryPayload) :
    EntitySeries.from_quantumleap_format p =
      match parse_index (p.index.getD []) with
      | none => none
      | some tix => some ⟨(p.entityType.getD "") ++ "Series", tix,
          merge_dicts ((p.attributes.getD []).map to_kv)⟩ :=
  rfl

/-- An attribute payload not named `name` contributes no entry keyed
`name`. -/
theorem to_kv_keys_ne (b : AttrPayload) (name : String)
    (hb : b.attrName.getD "" ≠ name) :
    ∀ p ∈ to_kv b, (p.1 == name) = false := by
  intro p hp
  by_cases h0 : b.attrName.getD "" = ""
  · simp [to_kv, h0] at hp
  · simp [to_kv, h0] at hp
    rw [hp]
    exact beq_eq_false_iff_ne.mpr hb

/-- The concatenated `to_kv` entries of payloads none of which is named
`name` hold no entry keyed `name`. -/
theorem flatten_to_kv_keys_ne (l : List AttrPayload) (name : String)
    (hl : ∀ b ∈ l, b.attrName.getD "" ≠ name) :
    ∀ p ∈ (l.map to_kv).flatten, (p.1 == name) = false := by
  intro p hp
  rcases List.mem_flatten.mp hp with ⟨d, hd, hpd⟩
  rcases List.mem_map.mp hd with ⟨b, hb, rfl⟩
  exact to_kv_keys_ne b name (hl b hb) p hpd

/-- C4: when exactly two attribute elements share a non-empty name, the
resulting series has exactly one field of that name and its value is the
values array of the later element (last-write-wins). -/
theorem C4_duplicate_attr_last_wins (q : QueryPayload) (pre mid post : List AttrPayload)
    (name : String) (v1 v2 : Option (List Py)) (r : EntitySeries)
    (hname : name ≠ "")
    (hpre : ∀ b ∈ pre, b.attrName.getD "" ≠ name)
    (hmid : ∀ b ∈ mid, b.attrName.getD "" ≠ name)
    (hpost : ∀ b ∈ post, b.attrName.getD "" ≠ name)
    (hres : EntitySeries.from_quantumleap_format
        { q with attributes := some (pre ++ ⟨some name, v1⟩ :: (mid ++ ⟨some name, v2⟩ :: post)) } =
      some r) :
    r.attrFields.filter (fun p => p.1 == name) = [(name, v2.getD [])] := by
  have hkv1 : to_kv ⟨some name, v1⟩ = [(name, v1.getD [])] := by simp [to_kv, hname]
  have hkv2 : to_kv ⟨some name, v2⟩ = [(name, v2.getD [])] := by simp [to_kv, hname]
  have hfields : r.attrFields =
      merge_dicts ((pre ++ ⟨some name, v1⟩ :: (mid ++ ⟨some name, v2⟩ :: post)).map to_kv) := by
    rw [from_ql_eq] at hres
    have hidx : ({ q with attributes := some (pre ++ ⟨some name, v1⟩ :: (mid ++ ⟨some name, v2⟩ :: post)) } : QueryPayload).index = q.index := rfl
    rw [hidx] at hres
    cases hpi : parse_index (q.index.getD []) with
    | none =>
      rw [hpi] at hres
      exact Option.noConfusion hres
    | some tix =>
      rw [hpi] at hres
      have h2 := Option.some.inj hres
      rw [← h2]
      rfl
  rw [hfields, merge_dicts_eq_flatten_foldl]
  simp only [List.map_append, List.map_cons, List.flatten_append, List.flatten_cons,
             List.foldl_append, List.foldl_cons, List.foldl_nil, hkv1, hkv2]
  rw [filter_foldl_update_ne _ _ _ (flatten_to_kv_keys_ne post name hpost)]
  apply filter_dict_update_self
  right
  refine ⟨v1.getD [], ?_⟩
  rw [filter_foldl_update_ne _ _ _ (flatten_to_kv_keys_ne mid name hmid)]
  apply filter_dict_update_self
  left
  rw [filter_foldl_update_ne _ _ _ (flatten_to_kv_keys_ne pre name hpre)]
  rfl

/-- Witness for C4 at a concrete payload with two `temp` attributes. -/
theorem C4_duplicate_attr_last_wins_witness :
    (EntitySeries.mk "RoomSeries" []
        [("temp", [Py.pint 3, Py.pint 4])]).attrFields.filter (fun p => p.1 == "temp") =
      [("temp", [Py.pint 3, Py.pint 4])] :=
  C4_duplicate_attr_last_wins ⟨some "Room", none, none⟩ [] [] [] "temp"
    (some [Py.pint 1, Py.pint 2]) (some [Py.pint 3, Py.pint 4])
    (EntitySeries.mk "RoomSeries" [] [("temp", [Py.pint 3, Py.pint 4])])
    (by decide) (by simp) (by simp) (by simp) rfl
